import Mathlib

/-
Verification of the VeriSim core (src/visualise.py) against its
natural-language specification.

The embedding works on `List Char` (Python `str`).  The regular expressions
of the source are simple enough that each one is embedded as a deterministic
scanning function: for every pattern used by the source the greedy/lazy
quantifier semantics collapse to maximal/minimal munch because the adjacent
character classes are disjoint (argued at each definition).  Python's `re`
character classes `\w` and `\s` default to Unicode; the embedding models
their ASCII subsets, which agree with Python on all ASCII text.
-/

namespace VeriSim

/-- Python `\w` (ASCII subset): letters, digits and underscore. -/
def isWordChar (c : Char) : Bool := c.isAlphanum || c == '_'

/-- Python `\s` (ASCII subset): space, tab, newline, carriage return,
vertical tab, form feed. -/
def isSpaceChar (c : Char) : Bool :=
  c == ' ' || c == '\t' || c == '\n' || c == '\r' || c == '\x0b' || c == '\x0c'

/-- Token checked by `"$dumpfile" in test_code` (visualise.py line 39). -/
def dumpfileTok : List Char := "$dumpfile".data

/-- Token checked by `"$dumpvars" in test_code` (visualise.py line 39). -/
def dumpvarsTok : List Char := "$dumpvars".data

/-- Python substring test `"$dumpfile" in test_code and "$dumpvars" in test_code`. -/
def tokensPresent (s : List Char) : Prop :=
  dumpfileTok <:+: s ∧ dumpvarsTok <:+: s

instance tokensPresentDec (s : List Char) : Decidable (tokensPresent s) :=
  inferInstanceAs (Decidable (_ ∧ _))

/-- The literal `module` of the two module regexes. -/
def moduleKw : List Char := "module".data

/-- The literal `initial` of the initial-block regex. -/
def initialKw : List Char := "initial".data

/-- The literal `begin` of the initial-block regex. -/
def beginKw : List Char := "begin".data

/-- Attempt of the regex `\bmodule\s+(\w+)\s*[;(]` at one position (the `\b`
is handled by the caller).  Greedy `\s+`, `\w+`, `\s*` need no backtracking
here: each is followed by a character that its own class cannot match, so
the regex engine's leftmost-greedy match is the maximal munch computed
below.  Returns the captured group `(\w+)`. -/
def matchModuleAt (l : List Char) : Option (List Char) :=
  if moduleKw <+: l then
    if (l.drop 6).takeWhile isSpaceChar = [] then none
    else if ((l.drop 6).dropWhile isSpaceChar).takeWhile isWordChar = [] then none
    else
      match (((l.drop 6).dropWhile isSpaceChar).dropWhile isWordChar).dropWhile isSpaceChar with
      | c :: _ =>
        if c = ';' ∨ c = '(' then
          some (((l.drop 6).dropWhile isSpaceChar).takeWhile isWordChar)
        else none
      | [] => none
  else none

/-- Embedding of `re.search(r'\bmodule\s+(\w+)\s*[;(]', test_code)`
(visualise.py lines 43-44): scan left to right; `prev` records whether the
character before the current position is a word character, so that the
word boundary `\b` (followed by the word character `m`) holds exactly when
`prev = false`. -/
def findModuleName : Bool → List Char → Option (List Char)
  | _, [] => none
  | prev, c :: cs =>
    match if prev then none else matchModuleAt (c :: cs) with
    | some nm => some nm
    | none => findModuleName (isWordChar c) cs

/-- Line 45 of visualise.py: `module_name = match.group(1) if match else "test"`. -/
def moduleNameOf (s : List Char) : List Char :=
  (findModuleName false s).getD "test".data

/-- Index of the last `'\n'` in a list, if any. -/
def lastNewlineIdx : List Char → Option Nat
  | [] => none
  | c :: cs =>
    match lastNewlineIdx cs with
    | some k => some (k + 1)
    | none => if c = '\n' then some 0 else none

/-- Attempt of the regex `(\s*initial\s*begin\s*\n)` at one position,
returning the length of the matched text.  The first two `\s*` are maximal
munch (followed by non-space literals); the final `\s*\n` matches, inside
the maximal whitespace run after `begin`, up to and including the *last*
newline of that run (the regex backtracks from the greedy end to the last
position whose next character is `'\n'`). -/
def matchInitialAt (l : List Char) : Option Nat :=
  let ws1 := l.takeWhile isSpaceChar
  let r1 := l.dropWhile isSpaceChar
  if initialKw <+: r1 then
    let r2 := r1.drop 7
    let ws2 := r2.takeWhile isSpaceChar
    let r3 := r2.dropWhile isSpaceChar
    if beginKw <+: r3 then
      let r4 := r3.drop 5
      let ws3 := r4.takeWhile isSpaceChar
      match lastNewlineIdx ws3 with
      | some k => some (ws1.length + 7 + ws2.length + 5 + k + 1)
      | none => none
    else none
  else none

/-- Embedding of `re.search`/`re.sub` match search for the pattern
`(\s*initial\s*begin\s*\n)` (visualise.py lines 48-57): leftmost match,
returned as (start index, length). -/
def findInitialAux : Nat → List Char → Option (Nat × Nat)
  | i, [] => (matchInitialAt []).map (fun len => (i, len))
  | i, c :: cs =>
    match matchInitialAt (c :: cs) with
    | some len => some (i, len)
    | none => findInitialAux (i + 1) cs

/-- Lazy scan of `.*?[;)]` (with `.` not matching `'\n'`): distance to the
first `';'` or `')'` reachable without crossing a newline. -/
def findStop : List Char → Option Nat
  | [] => none
  | c :: cs =>
    if c = ';' ∨ c = ')' then some 0
    else if c = '\n' then none
    else (findStop cs).map (· + 1)

/-- Attempt of the regex `module.*?[;)]` at one position, returning the
length of the matched text (note: no `\b`, so this also fires inside words
such as `endmodule`, exactly as the source's regex does). -/
def matchModHeaderAt (l : List Char) : Option Nat :=
  if moduleKw <+: l then (findStop (l.drop 6)).map (fun k => 6 + k + 1)
  else none

/-- Embedding of `re.search(r'module.*?[;)]', test_code)` (visualise.py
line 61): leftmost match as (start index, length); `match.end()` is the sum
of the two components. -/
def findModHeaderAux : Nat → List Char → Option (Nat × Nat)
  | i, [] => (matchModHeaderAt []).map (fun len => (i, len))
  | i, c :: cs =>
    match matchModHeaderAt (c :: cs) with
    | some len => some (i, len)
    | none => findModHeaderAux (i + 1) cs

/-- Text inserted after an existing `initial begin` match, up to the module
name: from the replacement template
`'\1        $dumpfile("waveform.vcd");\n        $dumpvars(0, {module_name});\n'`
(visualise.py line 54). -/
def injHead : List Char :=
  "        $dumpfile(\"waveform.vcd\");\n        $dumpvars(0, ".data

/-- Tail of the same replacement template, after the module name. -/
def injTail : List Char := ");\n".data

/-- Text of the freshly created initial block inserted after a module
header, up to the module name (visualise.py lines 66-67). -/
def blkHead : List Char :=
  "\n\n    // Auto-inserted VCD dump commands\n    initial begin\n        $dumpfile(\"waveform.vcd\");\n        $dumpvars(0, ".data

/-- Tail of the freshly created initial block, after the module name. -/
def blkTail : List Char := ");\n    end\n".data

/-- Embedding of `inject_vcd_commands` (visualise.py lines 34-73).  The
`re.sub(..., count=1)` of the source replaces the first match of
`(\s*initial\s*begin\s*\n)` by itself followed by the two dump statements,
i.e. it inserts `injHead ++ module_name ++ injTail` right after the match;
the fallback branch inserts the fresh initial block right after
`module_start.end()`. -/
def inject_vcd_commands (s : List Char) : List Char :=
  if tokensPresent s then s
  else
    match findInitialAux 0 s with
    | some (i, len) =>
      s.take (i + len) ++ injHead ++ moduleNameOf s ++ injTail ++ s.drop (i + len)
    | none =>
      match findModHeaderAux 0 s with
      | some (i, len) =>
        s.take (i + len) ++ blkHead ++ moduleNameOf s ++ blkTail ++ s.drop (i + len)
      | none => s

/-- Python `.isdigit` on ASCII, used by the float-literal model. -/
def is01 (c : Char) : Bool := c == '0' || c == '1'

/-- Python `v.strip('01')`: remove the maximal leading and trailing runs of
the characters `'0'`/`'1'` (visualise.py line 138). -/
def pyStrip01 (l : List Char) : List Char :=
  ((l.dropWhile is01).reverse.dropWhile is01).reverse

/-- Python `int(v, 2)` on the strings that can reach it under the guard
`v.strip('01') == ''` (i.e. strings of only `'0'`/`'1'`): the unsigned
binary value, and a `ValueError` (`none`) on the empty string.  (The
sign/whitespace/underscore lexical extras of `int` are unreachable under
the guard and are not modelled.) -/
def int2? (v : List Char) : Option Nat :=
  if v = [] then none
  else
    v.foldlM
      (fun acc c =>
        if c = '0' then some (2 * acc)
        else if c = '1' then some (2 * acc + 1) else none)
      0

/-- Digit scanner: consumes the maximal leading run of ASCII digits,
returning (value, number of digits, rest). -/
def readDigits : List Char → Nat → Nat → Nat × Nat × List Char
  | [], acc, n => (acc, n, [])
  | c :: cs, acc, n =>
    if c.isDigit then readDigits cs (10 * acc + (c.toNat - 48)) (n + 1)
    else (acc, n, c :: cs)

/-- Ten to an integer power, as a rational. -/
def qpow10 (e : Int) : ℚ :=
  if 0 ≤ e then ((10 : ℚ) ^ e.toNat) else 1 / (10 : ℚ) ^ (-e).toNat

/-- Exponent part of a float literal after the `e`/`E`: optional sign then
at least one digit, consuming the whole remaining text. -/
def parseExpPart (l : List Char) : Option Int :=
  let p : Int × List Char :=
    match l with
    | '+' :: r => (1, r)
    | '-' :: r => (-1, r)
    | _ => (1, l)
  let d := readDigits p.2 0 0
  if d.2.1 = 0 ∨ d.2.2 ≠ [] then none else some (p.1 * d.1)

/-- Python `float(v)` (visualise.py line 139), modelled over rationals:
optional surrounding whitespace, optional sign, a mantissa that is
`digits`, `digits.`, `digits.digits` or `.digits`, and an optional
`e`/`E` exponent.  The special values `inf`/`nan` and digit-group
underscores, which have no rational counterpart or do not occur in value
change dumps, are not modelled (`none`). -/
def pyFloat? (v : List Char) : Option ℚ :=
  let t := ((v.dropWhile isSpaceChar).reverse.dropWhile isSpaceChar).reverse
  let p : ℚ × List Char :=
    match t with
    | '+' :: r => (1, r)
    | '-' :: r => (-1, r)
    | _ => (1, t)
  let d := readDigits p.2 0 0
  let m : Option ℚ × List Char :=
    match d.2.2 with
    | '.' :: r2 =>
      let f := readDigits r2 0 0
      (if d.2.1 = 0 ∧ f.2.1 = 0 then none
       else some ((d.1 : ℚ) + (f.1 : ℚ) / ((10 : ℚ) ^ f.2.1)), f.2.2)
    | _ => (if d.2.1 = 0 then none else some ((d.1 : ℚ)), d.2.2)
  match m.1 with
  | none => none
  | some q =>
    match m.2 with
    | [] => some (p.1 * q)
    | 'e' :: r2 => (parseExpPart r2).map (fun e => p.1 * q * qpow10 e)
    | 'E' :: r2 => (parseExpPart r2).map (fun e => p.1 * q * qpow10 e)
    | _ => none

/-- One literal of the try-block of visualise.py lines 138-140:
`int(v, 2) if v.strip('01') == '' else float(v)` (the `else v` arm for
non-string values is unreachable: `vcdvcd` value literals are strings).
`none` models a `ValueError`. -/
def tryNumeric (v : String) : Option ℚ :=
  if pyStrip01 v.data = [] then (int2? v.data).map (fun n => (n : ℚ))
  else pyFloat? v.data

/-- The whole-series try-interpretation: the list comprehension of lines
138-140 evaluates left to right and aborts at the first `ValueError`. -/
def interpAll : List String → Option (List ℚ)
  | [] => some []
  | v :: vs =>
    match tryNumeric v, interpAll vs with
    | some q, some qs => some (q :: qs)
    | _, _ => none

/-- The except-branch of visualise.py lines 141-143:
`0 if v == '0' else 1 if v == '1' else 0.5`. -/
def fallbackVal (v : String) : ℚ :=
  if v = "0" then 0 else if v = "1" then 1 else 1 / 2

/-- Numeric interpretation of a whole value series (visualise.py lines
137-143): the try-block interpretation if every literal parses, otherwise
the uniform 0/1/0.5 fallback for every value. -/
def numericValues (values : List String) : List ℚ :=
  match interpAll values with
  | some qs => qs
  | none => values.map fallbackVal

/-- Points of one signal before numeric interpretation (visualise.py lines
118-135): the raw (time, literal) pairs, with a synthetic leading
`(0, "0")` when the first event is after time 0, and a trailing
`(max_time, last value)` when the last event is before `max_time`. -/
def buildPoints (tv : List (Nat × String)) (maxT : Nat) : List (Nat × String) :=
  match tv with
  | [] => []
  | (t0, _) :: _ =>
    let pts := (if 0 < t0 then [((0 : Nat), "0")] else []) ++ tv
    match tv.getLast? with
    | some (tl, vl) => if tl < maxT then pts ++ [(maxT, vl)] else pts
    | none => pts

/-- Tail of the step expansion: each further point `(t, v)` contributes
`(t, previous value)` then `(t, v)` (visualise.py lines 146-152). -/
def stepExpandAux : ℚ → List (Nat × ℚ) → List (Nat × ℚ)
  | _, [] => []
  | prev, (t, v) :: rest => (t, prev) :: (t, v) :: stepExpandAux v rest

/-- The step expansion loop of visualise.py lines 146-152: the first point
is emitted once, every later point is preceded by the held old value. -/
def stepExpand : List (Nat × ℚ) → List (Nat × ℚ)
  | [] => []
  | (t, v) :: rest => (t, v) :: stepExpandAux v rest

/-- Python `all(v in [0, 1] for v in numeric_values)` (visualise.py
line 172). -/
def isBinarySeries (nv : List ℚ) : Bool :=
  nv.all (fun v => decide (v = 0) || decide (v = 1))

/-- Python `min(list)` (first element as initial accumulator). -/
def pyMin : List ℚ → ℚ
  | [] => 0
  | h :: t => t.foldl min h

/-- Python `max(list)`. -/
def pyMax : List ℚ → ℚ
  | [] => 0
  | h :: t => t.foldl max h

/-- The y-axis range chosen per signal (visualise.py lines 171-194):
`[-0.5, 1.5]` for a binary series, else `[min - padding, max + padding]`
with `padding = (max - min) * 0.1`. -/
def yRange (nv : List ℚ) : ℚ × ℚ :=
  if isBinarySeries nv then (-(1 / 2), 3 / 2)
  else
    let mn := pyMin nv
    let mx := pyMax nv
    let padding := (mx - mn) * (1 / 10)
    (mn - padding, mx + padding)

/-- The per-signal output of the rendering loop. -/
structure RenderedSeries where
  steps : List (Nat × ℚ)
  yrange : ℚ × ℚ
  binary : Bool
deriving Repr, DecidableEq

/-- Rendering of one signal with a nonempty event list against the shared
`max_time` (visualise.py lines 118-194). -/
def renderSignal (tv : List (Nat × String)) (maxT : Nat) : RenderedSeries :=
  let pts := buildPoints tv maxT
  let nv := numericValues (pts.map Prod.snd)
  { steps := stepExpand ((pts.map Prod.fst).zip nv)
    yrange := yRange nv
    binary := isBinarySeries nv }

/-- Shared maximum timestamp over all signals (visualise.py lines
104-109): fold of `max` over the last event time of each signal with a
nonempty event list, starting from 0. -/
def traceMaxTime (trace : List (String × List (Nat × String))) : Nat :=
  trace.foldl
    (fun m p =>
      match p.2.getLast? with
      | some (t, _) => max m t
      | none => m)
    0

/-- The per-signal loop of visualise.py lines 111-194: a signal with an
empty event list is skipped (`continue`, line 115-116), every other signal
contributes one rendered series. -/
def renderLoop (maxT : Nat) : List (String × List (Nat × String)) → List (String × RenderedSeries)
  | [] => []
  | (name, tv) :: rest =>
    if tv.isEmpty then renderLoop maxT rest
    else (name, renderSignal tv maxT) :: renderLoop maxT rest

/-- Embedding of `visualize_vcd` after decoding (visualise.py lines
82-218): with zero signals it reports an error and returns `None`
(modelled as `none`); otherwise it returns the rendered series together
with the number of subplot rows, which counts *all* signals
(`num_signals = len(signals)`, line 90). -/
def visualize_vcd (trace : List (String × List (Nat × String))) :
    Option (List (String × RenderedSeries) × Nat) :=
  if trace.isEmpty then none
  else some (renderLoop (traceMaxTime trace) trace, trace.length)

/-- Modelled from the spec: the trace-decoder input (spec §4.2, §6).  The
decoder itself is not code under src/ — `visualize_vcd` delegates parsing
to the external `vcdvcd` library (visualise.py line 82) and only consumes
its output — so the artifact is modelled from the spec's words: a
declaration section of `(identifier, display-name, width)` triples in
file order, and a body of timestamped value-change records
`(time, identifier, value literal)`. -/
structure VCDArtifact where
  decls : List (String × String × Nat)
  changes : List (Nat × String × String)

/-- Modelled from the spec: the decode error kinds of spec §7;
`emptyTrace` is the `EmptyTraceError` raised for a well-formed artifact
with zero declared signals. -/
inductive DecodeErr where
  | emptyTrace
deriving Repr, DecidableEq

/-- Modelled from the spec: `decode(artifact) -> Trace` (spec §4.2): one
Signal per declared display-name, in file order, carrying the timestamped
updates of its identifier; an artifact with zero declared signals fails
with `EmptyTraceError` instead of yielding an empty Trace. -/
def decode (a : VCDArtifact) :
    Except DecodeErr (List (String × List (Nat × String))) :=
  if a.decls.isEmpty then .error .emptyTrace
  else
    .ok (a.decls.map
      (fun d =>
        (d.2.1, (a.changes.filter (fun ch => ch.2.1 = d.1)).map
          (fun ch => (ch.1, ch.2.2)))))

section

attribute [local semireducible] Rat.add Rat.mul Rat.inv Rat.sub Rat.ofScientific

example : tryNumeric "3.25" = some (13 / 4) := by decide

example : tryNumeric " -2e1 " = some (-20) := by decide

example : tryNumeric "x" = none := by decide

example : tryNumeric "" = none := by decide

example : tryNumeric "101" = some 5 := by decide

/-- An already-instrumented source is returned unchanged (visualise.py
lines 39-40). -/
lemma inject_eq_of_tokens (s : List Char) (h : tokensPresent s) :
    inject_vcd_commands s = s := by
  unfold inject_vcd_commands
  rw [if_pos h]

/-- Both dump tokens occur in any text that embeds a block containing
them. -/
lemma tokensPresent_insert (a hd nm tl b : List Char)
    (h1 : dumpfileTok <:+: hd) (h2 : dumpvarsTok <:+: hd) :
    tokensPresent (a ++ hd ++ nm ++ tl ++ b) := by
  have hmid : hd <:+: a ++ hd ++ nm ++ tl ++ b :=
    ⟨a, nm ++ tl ++ b, by simp [List.append_assoc]⟩
  exact ⟨h1.trans hmid, h2.trans hmid⟩

set_option maxRecDepth 4000 in
lemma injHead_has_dumpfile : dumpfileTok <:+: injHead := by decide

set_option maxRecDepth 4000 in
lemma injHead_has_dumpvars : dumpvarsTok <:+: injHead := by decide

set_option maxRecDepth 4000 in
lemma blkHead_has_dumpfile : dumpfileTok <:+: blkHead := by decide

set_option maxRecDepth 4000 in
lemma blkHead_has_dumpvars : dumpvarsTok <:+: blkHead := by decide

/-- Any output of the instrumentor either is the unchanged input or
contains both dump tokens. -/
lemma inject_output_cases (s : List Char) (h : ¬ tokensPresent s) :
    inject_vcd_commands s = s ∨ tokensPresent (inject_vcd_commands s) := by
  unfold inject_vcd_commands
  rw [if_neg h]
  cases hI : findInitialAux 0 s with
  | some r =>
    obtain ⟨i, len⟩ := r
    exact Or.inr
      (tokensPresent_insert _ _ _ _ _ injHead_has_dumpfile injHead_has_dumpvars)
  | none =>
    cases hM : findModHeaderAux 0 s with
    | some r =>
      obtain ⟨i, len⟩ := r
      exact Or.inr
        (tokensPresent_insert _ _ _ _ _ blkHead_has_dumpfile blkHead_has_dumpvars)
    | none => exact Or.inl rfl

/-- C2: for every source text `s`, `instrument (instrument s) = instrument s`;
in particular a source already containing both the `$dumpfile` and
`$dumpvars` substrings is returned unchanged. -/
theorem claim2_instrument_idempotent :
    (∀ s : List Char,
      inject_vcd_commands (inject_vcd_commands s) = inject_vcd_commands s) ∧
    (∀ s : List Char, tokensPresent s → inject_vcd_commands s = s) := by
  constructor
  · intro s
    by_cases h : tokensPresent s
    · rw [inject_eq_of_tokens s h]
      exact inject_eq_of_tokens s h
    · rcases inject_output_cases s h with hev | htok
      · rw [hev, hev]
      · exact inject_eq_of_tokens _ htok
  · exact inject_eq_of_tokens

/-- Witness for C2: a text containing both tokens is a fixed point. -/
theorem claim2_witness :
    inject_vcd_commands "$dumpfile $dumpvars".data = "$dumpfile $dumpvars".data :=
  claim2_instrument_idempotent.2 _ (by decide)

/-- C7: the output of the instrumentor differs from the input by at most a
single contiguous inserted span: it is either the input itself or
`take n ++ inserted ++ drop n` for one index `n` into the input. -/
theorem claim7_single_insertion :
    ∀ s : List Char,
      inject_vcd_commands s = s ∨
      ∃ n ins, inject_vcd_commands s = s.take n ++ ins ++ s.drop n := by
  intro s
  by_cases h : tokensPresent s
  · exact Or.inl (inject_eq_of_tokens s h)
  · cases hI : findInitialAux 0 s with
    | some r =>
      obtain ⟨i, len⟩ := r
      refine Or.inr ⟨i + len, injHead ++ moduleNameOf s ++ injTail, ?_⟩
      unfold inject_vcd_commands
      rw [if_neg h, hI]
      simp [List.append_assoc]
    | none =>
      cases hM : findModHeaderAux 0 s with
      | some r =>
        obtain ⟨i, len⟩ := r
        refine Or.inr ⟨i + len, blkHead ++ moduleNameOf s ++ blkTail, ?_⟩
        unfold inject_vcd_commands
        rw [if_neg h, hI, hM]
        simp [List.append_assoc]
      | none =>
        refine Or.inl ?_
        unfold inject_vcd_commands
        rw [if_neg h, hI, hM]

/-- C9: the instrumentor is a total function of the text (the embedding is
a plain Lean function, so totality holds by construction), and when
neither the module-declaration pattern nor any insertable anchor (initial
block opener or module header) matches, it returns the input unchanged. -/
theorem claim9_total_unchanged :
    ∀ s : List Char,
      findModuleName false s = none →
      findInitialAux 0 s = none →
      findModHeaderAux 0 s = none →
      inject_vcd_commands s = s := by
  intro s _hm hI hM
  by_cases h : tokensPresent s
  · exact inject_eq_of_tokens s h
  · unfold inject_vcd_commands
    rw [if_neg h, hI, hM]

/-- Witness for C9: a text with no anchors at all, and the empty text. -/
theorem claim9_witness :
    inject_vcd_commands "hello world".data = "hello world".data ∧
    inject_vcd_commands [] = [] :=
  ⟨claim9_total_unchanged _ (by decide) (by decide) (by decide),
   claim9_total_unchanged [] (by decide) (by decide) (by decide)⟩

/-- A successful attempt of the module-declaration pattern decomposes the
text as `module`, mandatory whitespace, the captured identifier, optional
whitespace, then `;` or `(`. -/
lemma matchModuleAt_sound (l nm : List Char) (h : matchModuleAt l = some nm) :
    nm ≠ [] ∧ (∀ c ∈ nm, isWordChar c = true) ∧
    ∃ ws ws2 c rest,
      l = moduleKw ++ ws ++ nm ++ ws2 ++ c :: rest ∧ ws ≠ [] ∧
      (∀ d ∈ ws, isSpaceChar d = true) ∧ (∀ d ∈ ws2, isSpaceChar d = true) ∧
      (c = ';' ∨ c = '(') := by
  unfold matchModuleAt at h
  split at h
  case isFalse => exact absurd h (by simp)
  case isTrue hpre =>
  obtain ⟨t, ht⟩ := hpre
  have hdrop : l.drop 6 = t := by
    have h6 := List.drop_left moduleKw t
    rw [show moduleKw.length = 6 from rfl] at h6
    rw [← ht, h6]
  rw [hdrop] at h
  split at h
  case isTrue => exact absurd h (by simp)
  case isFalse hws =>
  split at h
  case isTrue => exact absurd h (by simp)
  case isFalse hnmne =>
  split at h
  case h_2 => exact absurd h (by simp)
  case h_1 c0 tail heq =>
  split at h
  case isFalse => exact absurd h (by simp)
  case isTrue hc0 =>
  injection h with h2
  subst h2
  refine ⟨hnmne, fun c hc => List.mem_takeWhile_imp hc,
    t.takeWhile isSpaceChar,
    ((t.dropWhile isSpaceChar).dropWhile isWordChar).takeWhile isSpaceChar,
    c0, tail, ?_, hws, fun d hd => List.mem_takeWhile_imp hd,
    fun d hd => List.mem_takeWhile_imp hd, hc0⟩
  rw [← ht]
  have e1 := List.takeWhile_append_dropWhile isSpaceChar t
  have e2 := List.takeWhile_append_dropWhile isWordChar (t.dropWhile isSpaceChar)
  have e3 := List.takeWhile_append_dropWhile isSpaceChar
    ((t.dropWhile isSpaceChar).dropWhile isWordChar)
  rw [heq] at e3
  simp only [List.append_assoc]
  rw [e3, e2, e1]

/-- A hit of the scanning search for the module-declaration pattern is a
hit of the single-position attempt at some split of the text. -/
lemma findModuleName_sound :
    ∀ (l : List Char) (prev : Bool) (nm : List Char),
      findModuleName prev l = some nm →
      ∃ pre rest, l = pre ++ rest ∧ matchModuleAt rest = some nm := by
  intro l
  induction l with
  | nil => intro prev nm h; simp [findModuleName] at h
  | cons c cs ih =>
    intro prev nm h
    rw [findModuleName] at h
    cases hb : (if prev then none else matchModuleAt (c :: cs)) with
    | some nm2 =>
      rw [hb] at h
      injection h with h2
      subst h2
      cases prev with
      | true => simp at hb
      | false =>
        rw [if_neg (by simp)] at hb
        exact ⟨[], c :: cs, rfl, hb⟩
    | none =>
      rw [hb] at h
      obtain ⟨pre, rest, hpr, hm⟩ := ih _ _ h
      exact ⟨c :: pre, rest, by rw [hpr]; rfl, hm⟩

/-- C5: the scope-dump argument is the identifier captured by the first
hit of the module-declaration pattern (keyword `module`, mandatory
whitespace, an identifier, optional whitespace, then `;` or `(`); for
source containing `module foo;` the inserted argument is exactly `foo`
(also when a later `module bar;` exists), and with no module-declaration
match the fixed default identifier `test` is used. -/
theorem claim5_module_name :
    (∀ (s nm : List Char), findModuleName false s = some nm →
      nm ≠ [] ∧ (∀ c ∈ nm, isWordChar c = true) ∧
      ∃ pre ws ws2 c rest,
        s = pre ++ moduleKw ++ ws ++ nm ++ ws2 ++ c :: rest ∧ ws ≠ [] ∧
        (∀ d ∈ ws, isSpaceChar d = true) ∧ (∀ d ∈ ws2, isSpaceChar d = true) ∧
        (c = ';' ∨ c = '(')) ∧
    inject_vcd_commands "module foo;".data =
      ("module foo;\n\n    // Auto-inserted VCD dump commands\n    initial begin\n        $dumpfile(\"waveform.vcd\");\n        $dumpvars(0, foo);\n    end\n").data ∧
    findModuleName false "module foo; module bar;".data = some "foo".data ∧
    inject_vcd_commands "initial begin\n".data =
      ("initial begin\n        $dumpfile(\"waveform.vcd\");\n        $dumpvars(0, test);\n").data := by
  refine ⟨?_, by decide, by decide, by decide⟩
  intro s nm h
  obtain ⟨pre, rest, hsp, hm⟩ := findModuleName_sound s false nm h
  obtain ⟨hne, hword, ws, ws2, c, r2, hr, hwsne, hws, hws2, hc⟩ :=
    matchModuleAt_sound rest nm hm
  exact ⟨hne, hword, pre, ws, ws2, c, r2,
    by rw [hsp, hr]; simp [List.append_assoc], hwsne, hws, hws2, hc⟩

/-- Witness for C5: the general decomposition instantiated at
`module foo;`. -/
theorem claim5_witness :
    "foo".data ≠ [] ∧ (∀ c ∈ "foo".data, isWordChar c = true) ∧
    ∃ pre ws ws2 c rest,
      "module foo;".data = pre ++ moduleKw ++ ws ++ "foo".data ++ ws2 ++ c :: rest ∧
      ws ≠ [] ∧ (∀ d ∈ ws, isSpaceChar d = true) ∧
      (∀ d ∈ ws2, isSpaceChar d = true) ∧ (c = ';' ∨ c = '(') :=
  claim5_module_name.1 "module foo;".data "foo".data (by decide)

/-- The lazy scan `.*?[;)]` stops at the first `;` or `)` and never crosses
a newline: a hit splits the text into a clean run, the stop character and
the remainder. -/
lemma findStop_sound :
    ∀ (l : List Char) (k : Nat), findStop l = some k →
      ∃ mid c rest, l = mid ++ c :: rest ∧ mid.length = k ∧ (c = ';' ∨ c = ')') ∧
        ∀ d ∈ mid, ¬(d = ';' ∨ d = ')') ∧ d ≠ '\n' := by
  intro l
  induction l with
  | nil => intro k h; simp [findStop] at h
  | cons c cs ih =>
    intro k h
    rw [findStop] at h
    split at h
    case isTrue hc =>
      injection h with h2
      exact ⟨[], c, cs, rfl, h2, hc, by simp⟩
    case isFalse hc =>
    split at h
    case isTrue => exact absurd h (by simp)
    case isFalse hnl =>
    cases hfs : findStop cs with
    | none => rw [hfs] at h; exact absurd h (by simp)
    | some k2 =>
      rw [hfs] at h
      injection h with h2
      have h3 : k2 + 1 = k := h2
      obtain ⟨mid, c2, rest, hl, hlen, hcs, hmid⟩ := ih _ hfs
      refine ⟨c :: mid, c2, rest, by simp [hl], by simp [hlen]; omega, hcs, ?_⟩
      intro d hd
      rcases List.mem_cons.mp hd with rfl | hdm
      · exact ⟨hc, hnl⟩
      · exact hmid d hdm

/-- A hit of the module-header pattern `module.*?[;)]` at one position
decomposes the text as `module`, a run without `;`, `)` or newline, and
the stop character; the match length points just past the stop
character. -/
lemma matchModHeaderAt_sound (l : List Char) (len : Nat)
    (h : matchModHeaderAt l = some len) :
    ∃ mid c rest, l = moduleKw ++ mid ++ c :: rest ∧ len = 6 + mid.length + 1 ∧
      (c = ';' ∨ c = ')') ∧ ∀ d ∈ mid, ¬(d = ';' ∨ d = ')') ∧ d ≠ '\n' := by
  unfold matchModHeaderAt at h
  split at h
  case isFalse => exact absurd h (by simp)
  case isTrue hpre =>
  obtain ⟨t, ht⟩ := hpre
  have hdrop : l.drop 6 = t := by
    have h6 := List.drop_left moduleKw t
    rw [show moduleKw.length = 6 from rfl] at h6
    rw [← ht, h6]
  rw [hdrop] at h
  cases hfs : findStop t with
  | none => rw [hfs] at h; exact absurd h (by simp)
  | some k =>
    rw [hfs] at h
    injection h with h2
    have h3 : 6 + k + 1 = len := h2
    obtain ⟨mid, c, rest, ht2, hlen, hc, hmid⟩ := findStop_sound t k hfs
    exact ⟨mid, c, rest, by rw [← ht, ht2]; simp [List.append_assoc],
      by omega, hc, hmid⟩

/-- A hit of the scanning search for the module-header pattern is a hit of
the single-position attempt at some split of the text, and the reported
start index is the length of the skipped part. -/
lemma findModHeaderAux_sound :
    ∀ (l : List Char) (i j len : Nat), findModHeaderAux i l = some (j, len) →
      ∃ pre rest, l = pre ++ rest ∧ j = i + pre.length ∧
        matchModHeaderAt rest = some len := by
  intro l
  induction l with
  | nil => intro i j len h; simp [findModHeaderAux, matchModHeaderAt, moduleKw] at h
  | cons c cs ih =>
    intro i j len h
    rw [findModHeaderAux] at h
    cases hb : matchModHeaderAt (c :: cs) with
    | some len2 =>
      rw [hb] at h
      injection h with h2
      injection h2 with hj hlen
      subst hj
      subst hlen
      exact ⟨[], c :: cs, rfl, by simp, hb⟩
    | none =>
      rw [hb] at h
      obtain ⟨pre, rest, hpr, hj, hm⟩ := ih _ _ _ h
      exact ⟨c :: pre, rest, by simp [hpr], by simp [hj]; omega, hm⟩

/-- C6 (amended): when the source is not instrumented, no initial-block
opener matches, and the module-header pattern `module.*?[;)]` has a hit,
the fresh initial block with the two dump statements is inserted
immediately after the first `;` or `)` that follows the text `module`
*with no intervening newline* (the pattern's `.` cannot cross a line
break; when every `;`/`)` after `module` sits on a later line there is no
hit and the source is returned unchanged, see the counterexample). -/
theorem claim6_header_insertion :
    ∀ (s : List Char) (i len : Nat),
      ¬ tokensPresent s →
      findInitialAux 0 s = none →
      findModHeaderAux 0 s = some (i, len) →
      ∃ pre mid c rest,
        s = pre ++ moduleKw ++ mid ++ c :: rest ∧
        (c = ';' ∨ c = ')') ∧
        (∀ d ∈ mid, ¬(d = ';' ∨ d = ')') ∧ d ≠ '\n') ∧
        inject_vcd_commands s =
          pre ++ moduleKw ++ mid ++ c ::
            (blkHead ++ moduleNameOf s ++ blkTail ++ rest) := by
  intro s i len htok hI hM
  obtain ⟨pre, rest, hsplit, hj, hmatch⟩ := findModHeaderAux_sound s 0 i len hM
  obtain ⟨mid, c, rest2, hrest, hlen, hc, hmid⟩ :=
    matchModHeaderAt_sound rest len hmatch
  have ha : s = (pre ++ moduleKw ++ mid ++ [c]) ++ rest2 := by
    rw [hsplit, hrest]
    simp [List.append_assoc]
  have hlen2 : i + len = (pre ++ moduleKw ++ mid ++ [c]).length := by
    rw [hj, hlen]
    simp [List.length_append, show moduleKw.length = 6 from rfl]
    omega
  refine ⟨pre, mid, c, rest2, by rw [hsplit, hrest]; simp [List.append_assoc],
    hc, hmid, ?_⟩
  unfold inject_vcd_commands
  rw [if_neg htok, hI, hM]
  dsimp only
  rw [ha, hlen2, List.take_left, List.drop_left]
  simp [List.append_assoc]

/-- Witness for C6: the amended insertion behaviour at `module top;`. -/
theorem claim6_witness :
    ∃ pre mid c rest,
      "module top;".data = pre ++ moduleKw ++ mid ++ c :: rest ∧
      (c = ';' ∨ c = ')') ∧
      (∀ d ∈ mid, ¬(d = ';' ∨ d = ')') ∧ d ≠ '\n') ∧
      inject_vcd_commands "module top;".data =
        pre ++ moduleKw ++ mid ++ c ::
          (blkHead ++ moduleNameOf "module top;".data ++ blkTail ++ rest) :=
  claim6_header_insertion "module top;".data 0 11 (by decide) (by decide)
    (by decide)

/-- Counterexample to C6 as stated: `module top(\n);` is not instrumented
and has no initial-block opener, a `)` does follow the keyword `module`
(on the next line), yet the instrumentor inserts nothing and returns the
source unchanged, because `.` in `module.*?[;)]` does not match a
newline. -/
theorem claim6_counterexample :
    ¬ tokensPresent "module top(\n);".data ∧
    findInitialAux 0 "module top(\n);".data = none ∧
    ')' ∈ "module top(\n);".data ∧
    inject_vcd_commands "module top(\n);".data = "module top(\n);".data := by
  refine ⟨by decide, by decide, by decide, by decide⟩

/-- C1 (amended): on events `[(0,"0"), (10,"1"), (25,"0")]` with shared
`max_time = 30` the rendered staircase is the claimed sequence *followed
by one more duplicate `(30, 0)`*: the trailing extension point at
`max_time` is processed like any other transition, contributing a held-old
-value point and a new-value point even though both coincide. -/
theorem claim1_step_sequence :
    (renderSignal [(0, "0"), (10, "1"), (25, "0")] 30).steps =
      [(0, 0), (10, 0), (10, 1), (25, 1), (25, 0), (30, 0), (30, 0)] := by
  decide

/-- Counterexample to C1 as stated: the rendered series is not *exactly*
the six-point sequence — it carries a seventh, duplicated `(30, 0)`. -/
theorem claim1_counterexample :
    (renderSignal [(0, "0"), (10, "1"), (25, "0")] 30).steps ≠
      [(0, 0), (10, 0), (10, 1), (25, 1), (25, 0), (30, 0)] := by
  decide

/-- If every literal of the series parses, the try-interpretation returns
exactly the per-literal parses. -/
lemma interpAll_eq_some (values : List String)
    (h : ∀ v ∈ values, (tryNumeric v).isSome) :
    interpAll values = some (values.map (fun v => (tryNumeric v).getD 0)) := by
  induction values with
  | nil => rfl
  | cons v vs ih =>
    obtain ⟨q, hq⟩ := Option.isSome_iff_exists.mp (h v (by simp))
    rw [interpAll, hq, ih (fun w hw => h w (by simp [hw]))]
    simp [hq]

/-- If any literal of the series fails to parse, the whole
try-interpretation fails. -/
lemma interpAll_eq_none (values : List String)
    (h : ∃ v ∈ values, tryNumeric v = none) :
    interpAll values = none := by
  induction values with
  | nil => simp at h
  | cons v vs ih =>
    rw [interpAll]
    rcases h with ⟨w, hw, hnone⟩
    rcases List.mem_cons.mp hw with rfl | hwm
    · rw [hnone]
    · cases ht : tryNumeric v with
      | none => rfl
      | some q => rw [ih ⟨w, hwm, hnone⟩]

/-- Python's `v.strip('01') == ''` test holds exactly when every character
of `v` is `'0'` or `'1'` (vacuously for the empty string). -/
lemma strip01_nil_iff (l : List Char) :
    pyStrip01 l = [] ↔ ∀ c ∈ l, is01 c = true := by
  unfold pyStrip01
  rw [List.reverse_eq_nil_iff, List.dropWhile_eq_nil_iff]
  constructor
  · intro h c hc
    have e := List.takeWhile_append_dropWhile is01 l
    rw [← e] at hc
    rcases List.mem_append.mp hc with h1 | h1
    · exact List.mem_takeWhile_imp h1
    · exact h c (List.mem_reverse.mpr h1)
  · intro h c hc
    refine h c ?_
    have e := List.takeWhile_append_dropWhile is01 l
    rw [← e]
    exact List.mem_append.mpr (Or.inr (List.mem_reverse.mp hc))

/-- C3: numeric interpretation is all-or-nothing per signal and total: a
literal of only `0`/`1` characters is read as unsigned binary, any other
literal as a float literal; when every literal parses the series is the
list of parses, and when any literal fails the *whole* series is mapped by
the fallback `"0" ↦ 0`, `"1" ↦ 1`, other `↦ 0.5` — `numericValues` is a
total function either way, so no interpretation failure escapes the
renderer. -/
theorem claim3_numeric_fallback :
    (∀ values : List String, (∀ v ∈ values, (tryNumeric v).isSome) →
      numericValues values = values.map (fun v => (tryNumeric v).getD 0)) ∧
    (∀ values : List String, (∃ v ∈ values, tryNumeric v = none) →
      numericValues values = values.map fallbackVal) ∧
    (∀ v : String, (∀ c ∈ v.data, is01 c = true) →
      tryNumeric v = (int2? v.data).map (fun n => (n : ℚ))) ∧
    (∀ v : String, (∃ c ∈ v.data, ¬ is01 c = true) →
      tryNumeric v = pyFloat? v.data) ∧
    fallbackVal "0" = 0 ∧ fallbackVal "1" = 1 ∧
    (∀ v : String, v ≠ "0" → v ≠ "1" → fallbackVal v = 1 / 2) := by
  refine ⟨?_, ?_, ?_, ?_, rfl, rfl, ?_⟩
  · intro values h
    unfold numericValues
    rw [interpAll_eq_some values h]
  · intro values h
    unfold numericValues
    rw [interpAll_eq_none values h]
  · intro v h
    unfold tryNumeric
    rw [if_pos ((strip01_nil_iff v.data).mpr h)]
  · intro v h
    obtain ⟨c, hc, hnot⟩ := h
    unfold tryNumeric
    rw [if_neg (fun hif => hnot ((strip01_nil_iff v.data).mp hif c hc))]
  · intro v h1 h2
    unfold fallbackVal
    rw [if_neg h1, if_neg h2]

/-- Witness for C3: an all-parsing series keeps its parses; a series with
the unparsable literal `x` falls back for every value. -/
theorem claim3_witness :
    numericValues ["0", "1"] =
      ["0", "1"].map (fun v => (tryNumeric v).getD 0) ∧
    numericValues ["0", "1", "x"] = ["0", "1", "x"].map fallbackVal :=
  ⟨claim3_numeric_fallback.1 ["0", "1"] (by decide),
   claim3_numeric_fallback.2.1 ["0", "1", "x"] ⟨"x", by decide, by decide⟩⟩

/-- C8 (amended): for a non-binary series the range is
`[min - p, max + p]` with `p = (max - min) * 0.1` *unconditionally*: the
height of the range is `1.2` times the value span, and the range is
degenerate (zero height) exactly when the span is zero — there is no
non-zero fallback padding. -/
theorem claim8_range_padding :
    ∀ nv : List ℚ, isBinarySeries nv = false →
      (yRange nv).1 = pyMin nv - (pyMax nv - pyMin nv) * (1 / 10) ∧
      (yRange nv).2 = pyMax nv + (pyMax nv - pyMin nv) * (1 / 10) ∧
      (yRange nv).2 - (yRange nv).1 = (pyMax nv - pyMin nv) * (6 / 5) ∧
      ((yRange nv).1 = (yRange nv).2 ↔ pyMax nv = pyMin nv) := by
  intro nv h
  have h1 : yRange nv = (pyMin nv - (pyMax nv - pyMin nv) * (1 / 10),
      pyMax nv + (pyMax nv - pyMin nv) * (1 / 10)) := by
    unfold yRange
    rw [h]
    rfl
  rw [h1]
  refine ⟨rfl, rfl, by dsimp only; ring, ?_⟩
  dsimp only
  constructor
  · intro heq
    linarith
  · intro heq
    rw [heq]
    ring_nf

/-- Witness for C8: the amended padding rule at the constant non-binary
series `[1/2]` (span zero, degenerate range). -/
theorem claim8_witness :
    (yRange [1 / 2]).1 = pyMin [1 / 2] - (pyMax [1 / 2] - pyMin [1 / 2]) * (1 / 10) ∧
    (yRange [1 / 2]).2 = pyMax [1 / 2] + (pyMax [1 / 2] - pyMin [1 / 2]) * (1 / 10) ∧
    (yRange [1 / 2]).2 - (yRange [1 / 2]).1 =
      (pyMax [1 / 2] - pyMin [1 / 2]) * (6 / 5) ∧
    ((yRange [1 / 2]).1 = (yRange [1 / 2]).2 ↔ pyMax [1 / 2] = pyMin [1 / 2]) :=
  claim8_range_padding [1 / 2] (by decide)

/-- Counterexample to C8 as stated: a signal whose every literal is the
sentinel `x` renders to the constant series `[0.5]`, is classified
non-binary, and its suggested range is the *degenerate* pair
`(0.5, 0.5)` — the claimed non-zero fallback padding for a zero span does
not exist in the code. -/
theorem claim8_counterexample :
    (renderSignal [(0, "x")] 0).binary = false ∧
    (renderSignal [(0, "x")] 0).yrange.1 = (renderSignal [(0, "x")] 0).yrange.2 := by
  refine ⟨by decide, by decide⟩

/-- The rendering loop keeps exactly the signals with a nonempty event
list, in order. -/
lemma renderLoop_eq_filter (m : Nat) :
    ∀ trace : List (String × List (Nat × String)),
      renderLoop m trace =
        (trace.filter (fun p => !p.2.isEmpty)).map
          (fun p => (p.1, renderSignal p.2 m)) := by
  intro trace
  induction trace with
  | nil => rfl
  | cons p rest ih =>
    obtain ⟨name, tv⟩ := p
    rw [renderLoop]
    by_cases he : tv.isEmpty
    · rw [if_pos he, ih]
      simp [List.filter_cons, he]
    · rw [if_neg he, ih]
      simp [List.filter_cons, he]

/-- C10: a declared signal with an empty event list is silently omitted
from the rendering loop's output — it contributes no rendered series at
all — while still counting toward the signal set and the subplot row
count of the figure. -/
theorem claim10_empty_signal_skipped :
    ∀ (trace : List (String × List (Nat × String))) (m : Nat) (name : String),
      (trace.map Prod.fst).Nodup →
      (name, ([] : List (Nat × String))) ∈ trace →
      (renderLoop m trace =
        (trace.filter (fun p => !p.2.isEmpty)).map
          (fun p => (p.1, renderSignal p.2 m))) ∧
      name ∉ (renderLoop m trace).map Prod.fst ∧
      name ∈ trace.map Prod.fst ∧
      visualize_vcd trace =
        some (renderLoop (traceMaxTime trace) trace, trace.length) := by
  intro trace m name hnd hmem
  refine ⟨renderLoop_eq_filter m trace, ?_, ?_, ?_⟩
  · intro hin
    rw [renderLoop_eq_filter, List.map_map] at hin
    obtain ⟨p, hpf, hp1⟩ := List.mem_map.mp hin
    have hpl : p ∈ trace := List.mem_of_mem_filter hpf
    have hpne : p.2.isEmpty = false := by
      have := (List.mem_filter.mp hpf).2
      simpa using this
    have hinj := List.inj_on_of_nodup_map hnd
    have hp := hinj hpl hmem (by simpa using hp1)
    rw [hp] at hpne
    simp at hpne
  · exact List.mem_map.mpr ⟨(name, []), hmem, rfl⟩
  · unfold visualize_vcd
    rw [if_neg ?_]
    intro hempty
    rw [List.isEmpty_iff] at hempty
    rw [hempty] at hmem
    simp at hmem

/-- Witness for C10: a two-signal trace whose first signal has no
events — it is absent from the rendered output but counted in the two
subplot rows. -/
theorem claim10_witness :
    (renderLoop 0 [("a", ([] : List (Nat × String))), ("b", [(0, "1")])] =
      ([("a", ([] : List (Nat × String))), ("b", [(0, "1")])].filter
        (fun p => !p.2.isEmpty)).map (fun p => (p.1, renderSignal p.2 0))) ∧
    "a" ∉ (renderLoop 0
      [("a", ([] : List (Nat × String))), ("b", [(0, "1")])]).map Prod.fst ∧
    "a" ∈ ([("a", ([] : List (Nat × String))), ("b", [(0, "1")])]).map Prod.fst ∧
    visualize_vcd [("a", ([] : List (Nat × String))), ("b", [(0, "1")])] =
      some (renderLoop
        (traceMaxTime [("a", ([] : List (Nat × String))), ("b", [(0, "1")])])
        [("a", ([] : List (Nat × String))), ("b", [(0, "1")])],
        [("a", ([] : List (Nat × String))), ("b", [(0, "1")])].length) :=
  claim10_empty_signal_skipped _ 0 "a" (by decide) (by decide)

/-- C4: decoding an artifact with zero declared signals fails with the
typed `EmptyTraceError` rather than returning an empty Trace; a decoded
Trace has exactly one signal per declaration; and the caller side under
src/ maps an empty signal list to an error result (`None`), not to an
empty visualization. -/
theorem claim4_decode_counts :
    (∀ a : VCDArtifact, a.decls = [] → decode a = .error .emptyTrace) ∧
    (∀ (a : VCDArtifact) (t : List (String × List (Nat × String))),
      decode a = .ok t → t.length = a.decls.length ∧ t ≠ []) ∧
    visualize_vcd [] = none := by
  refine ⟨?_, ?_, rfl⟩
  · intro a h
    unfold decode
    rw [h]
    rfl
  · intro a t h
    unfold decode at h
    split at h
    case isTrue => exact absurd h (by simp)
    case isFalse hne =>
      injection h with h2
      constructor
      · rw [← h2]
        simp
      · rw [← h2]
        simp only [ne_eq, List.map_eq_nil_iff]
        intro hd
        rw [hd] at hne
        simp at hne

/-- Witness for C4: the empty artifact fails with `EmptyTraceError`; an
artifact declaring one signal decodes to a one-signal trace. -/
theorem claim4_witness :
    decode ⟨[], []⟩ = .error .emptyTrace ∧
    ([("clk", [(0, "1")])] : List (String × List (Nat × String))).length =
      (VCDArtifact.mk [("!", "clk", 1)] [(0, "!", "1")]).decls.length ∧
    ([("clk", [(0, "1")])] : List (String × List (Nat × String))) ≠ [] :=
  ⟨claim4_decode_counts.1 ⟨[], []⟩ rfl,
   (claim4_decode_counts.2.1 ⟨[("!", "clk", 1)], [(0, "!", "1")]⟩
     [("clk", [(0, "1")])] rfl).1,
   (claim4_decode_counts.2.1 ⟨[("!", "clk", 1)], [(0, "!", "1")]⟩
     [("clk", [(0, "1")])] rfl).2⟩

end

end VeriSim
